import Mathlib

/-!
Verification development for the message-queue transport in
dttools/src/mq.c: a non-blocking, length-prefixed message transport over
stream sockets together with a multiplexing poll-set.

The embedding is byte-level and executable.  Machine integers are
modelled as Nat (errno values, byte values 0..255, cursors); the
fallible drive loops are modelled with a fuel parameter and return
Option (none = fuel exhausted, which never happens for the concrete
runs below).  The kernel socket is modelled as a script: a list of byte
fragments followed by a terminator (clean close, would-block, or a
fatal errno) on the receive side, and a list of per-syscall outcomes on
the send side.  This lets a theorem quantify over every fragmentation
of the byte stream.

One deliberate modelling point: the C source computes the resume
pointer of a partial header transfer as (&msg->hdr + msg->hdr_pos).
Since &msg->hdr has type struct mq_msg_header * and that struct is 16
bytes, C pointer arithmetic advances this by 16*hdr_pos BYTES, not
hdr_pos bytes.  The embedding reproduces that offset computation
faithfully (see hdrResumeOff), and models the bytes such a transfer
actually touches, using the LP64 layout of struct mq_msg:

  offset  0 type (enum, 4 bytes + 4 padding)
  offset  8 len        offset 16 buf        offset 24 hdr (16 bytes)
  offset 40 parsed_header (1 byte + 7 padding)
  offset 48 hdr_pos    offset 56 buf_pos    (allocation ends at 64)

Relative to the start of hdr that is: +16 parsed_header, +17..+23
padding, +24..+31 hdr_pos (little-endian), +32..+39 buf_pos
(little-endian), and from +40 on lies outside the allocation.  So a
resumed header read clobbers parsed_header and the cursors themselves
(msgStoreByte), and a resumed header write sends those same struct
bytes (msgLoadByte).  Two remaining choices, both documented at the
definitions: a clobbered C bool tests as true exactly when its byte is
non-zero, and padding bytes read as zero (the struct comes from
xxcalloc and no code writes the padding).  Bytes at +40 and beyond are
outside the modelled object (a heap overflow in the program): stores
there are dropped and loads read zero; no theorem's verdict rests on
those bytes.
-/

namespace MqModel

/-- The five magic bytes, ASCII for the string DSmsg: 0x44 0x53 0x6d 0x73 0x67. -/
def magicBytes : List Nat := [68, 83, 109, 115, 103]

/-- htobe64: the eight bytes of a 64-bit value, most significant first. -/
def be64 (n : Nat) : List Nat :=
  [n / 2 ^ 56 % 256, n / 2 ^ 48 % 256, n / 2 ^ 40 % 256, n / 2 ^ 32 % 256,
   n / 2 ^ 24 % 256, n / 2 ^ 16 % 256, n / 2 ^ 8 % 256, n % 256]

/-- be64toh: fold eight big-endian bytes back into a value. -/
def be64toh (bs : List Nat) : Nat :=
  bs.foldl (fun a b => a * 256 + b) 0

/-- Store the bytes of src into dst starting at byte offset off.
Bytes that fall outside dst (out-of-bounds stores in C) are dropped. -/
def writeBytesAt : List Nat → Nat → List Nat → List Nat
  | [], _, _ => []
  | d :: ds, 0, [] => d :: ds
  | _ :: ds, 0, s :: ss => s :: writeBytesAt ds 0 ss
  | d :: ds, off + 1, src => d :: writeBytesAt ds off src

/-- Replace byte k of the little-endian representation of v. -/
def setByteLE (v k b : Nat) : Nat :=
  v % 2 ^ (8 * k) + b * 2 ^ (8 * k) + v / 2 ^ (8 * (k + 1)) * 2 ^ (8 * (k + 1))

/-- The byte offset that the C expression (&msg->hdr + pos) adds to the
start of the 16-byte wire header: pointer arithmetic on a
struct mq_msg_header pointer moves in units of sizeof(struct mq_msg_header)
= 16 bytes.  (The spec calls for byte offset pos.) -/
def hdrResumeOff (pos : Nat) : Nat := 16 * pos

/-- struct mq_msg: a message together with its transient I/O cursors.
hdr is the 16-byte wire-header buffer of the struct. -/
structure Msg where
  type : Nat
  len : Nat
  buf : List Nat
  hdr : List Nat
  parsedHeader : Bool
  hdrPos : Nat
  bufPos : Nat
  deriving DecidableEq, Repr

/-- msg_create: xxcalloc leaves every field zero. -/
def msgCreate : Msg :=
  { type := 0
    len := 0
    buf := []
    hdr := List.replicate 16 0
    parsedHeader := false
    hdrPos := 0
    bufPos := 0 }

/-- write_header: memcpy the magic, store the type byte (uint8_t, hence
mod 256) and the big-endian length.  The two pad bytes are not written. -/
def write_header (m : Msg) : Msg :=
  { m with
    hdr := writeBytesAt (writeBytesAt m.hdr 0 magicBytes) 7
             ([m.type % 256] ++ be64 m.len) }

/-- mq_wrap_buffer: copy size bytes into a fresh BUFFER message. -/
def mq_wrap_buffer (b : List Nat) : Msg :=
  { msgCreate with type := 0, len := b.length, buf := b }

/-- Store one byte at offset o relative to the start of the 16-byte
hdr field, per the LP64 layout in the file comment: inside hdr, onto
parsed_header (a clobbered C bool then tests as true exactly when the
byte is non-zero), into the padding (no effect), onto a little-endian
byte of hdr_pos or buf_pos, or - from offset 40 on - outside the
allocation, which the model drops. -/
def msgStoreByte (m : Msg) (o b : Nat) : Msg :=
  if o < 16 then { m with hdr := writeBytesAt m.hdr o [b] }
  else if o = 16 then { m with parsedHeader := b ≠ 0 }
  else if o < 24 then m
  else if o < 32 then { m with hdrPos := setByteLE m.hdrPos (o - 24) b }
  else if o < 40 then { m with bufPos := setByteLE m.bufPos (o - 32) b }
  else m

/-- Store a run of bytes starting at offset off relative to hdr. -/
def msgStoreBytes (m : Msg) (off : Nat) : List Nat → Msg
  | [] => m
  | b :: bs => msgStoreBytes (msgStoreByte m off b) (off + 1) bs

/-- Load the byte at offset o relative to the start of hdr: a header
byte, parsed_header (false/true stored as 0/1), a padding byte (zero,
from xxcalloc), a little-endian byte of hdr_pos or buf_pos, or - from
offset 40 on - a byte outside the allocation, modelled as zero. -/
def msgLoadByte (m : Msg) (o : Nat) : Nat :=
  if o < 16 then m.hdr.getD o 0
  else if o = 16 then (if m.parsedHeader then 1 else 0)
  else if o < 24 then 0
  else if o < 32 then m.hdrPos / 2 ^ (8 * (o - 24)) % 256
  else if o < 40 then m.bufPos / 2 ^ (8 * (o - 32)) % 256
  else 0

/-- Load a run of n bytes starting at offset off relative to hdr. -/
def msgLoadBytes (m : Msg) (off n : Nat) : List Nat :=
  (List.range n).map (fun i => msgLoadByte m (off + i))

/-- What the kernel does once the scripted inbound fragments run out. -/
inductive SockTerm where
  | eof
  | again
  | fatalErr (e : Nat)
  deriving DecidableEq, Repr

/-- The inbound byte stream: its remaining fragmentation into chunks,
then the terminator. -/
structure SockIn where
  frags : List (List Nat)
  term : SockTerm
  deriving DecidableEq, Repr

/-- Result of one recv(2) call. -/
inductive ReadRes where
  | bytes (bs : List Nat)
  | closed
  | tempErr
  | fatalRes (e : Nat)
  deriving DecidableEq, Repr

def termRes : SockTerm → ReadRes
  | SockTerm.eof => ReadRes.closed
  | SockTerm.again => ReadRes.tempErr
  | SockTerm.fatalErr e => ReadRes.fatalRes e

/-- One recv(2) of at most n bytes against the fragment script: the
call returns a non-empty prefix (of length at most n) of the first
non-empty fragment, or the terminator once no bytes remain. -/
def recvChunks : List (List Nat) → SockTerm → Nat → ReadRes × List (List Nat)
  | [], t, _ => (termRes t, [])
  | [] :: rest, t, n => recvChunks rest t n
  | (b :: bs) :: rest, _, n =>
      (ReadRes.bytes ((b :: bs).take n),
       if (b :: bs).drop n = [] then rest else (b :: bs).drop n :: rest)

def recvSys (s : SockIn) (n : Nat) : ReadRes × SockIn :=
  ((recvChunks s.frags s.term n).1, ⟨(recvChunks s.frags s.term n).2, s.term⟩)

/-- Result of one send(2) call, as scripted: the kernel accepts up to k
bytes, or reports would-block, or a fatal errno. -/
inductive SendRes where
  | accept (k : Nat)
  | wblock
  | fatal (e : Nat)
  deriving DecidableEq, Repr

/-- One send(2) of n bytes against the script; an accept is capped at
the n bytes actually offered.  An exhausted script would-blocks. -/
def sendSys : List SendRes → Nat → SendRes × List SendRes
  | [], _ => (SendRes.wblock, [])
  | SendRes.accept k :: rest, n => (SendRes.accept (min k n), rest)
  | SendRes.wblock :: rest, _ => (SendRes.wblock, rest)
  | SendRes.fatal e :: rest, _ => (SendRes.fatal e, rest)

/-- enum mq_socket. -/
inductive MqState where
  | server
  | inprogress
  | connected
  | error
  deriving DecidableEq, Repr

/-- struct mq.  The three Bool flags record this endpoint's membership
in the acceptable / readable / error readiness sets of the poll group
it belongs to (meaningful only when pollGroup is some).  acc records
whether an accepted child endpoint is waiting (the child itself plays
no further role in the claims). -/
structure Ep where
  state : MqState
  err : Nat
  sendQ : List Msg
  sendBuf : Option Msg
  recvBuf : Option Msg
  recv : Option Msg
  acc : Bool
  pollGroup : Option Nat
  inAcceptable : Bool
  inReadable : Bool
  inError : Bool
  deriving DecidableEq, Repr

/-- mq_geterror. -/
def mq_geterror (ep : Ep) : Nat :=
  if ep.state = MqState.error then ep.err else 0

/-- mq_die: latch the error state, release the accepted child, the
send/receive buffers, the pending received message and the whole send
queue; fix up the poll group sets (the error set is left/removed when
err == 0 here, but see update_poll_group, which runs afterwards on the
wait paths). -/
def mq_die (ep : Ep) (err : Nat) : Ep :=
  let ep1 : Ep :=
    { ep with
      state := MqState.error
      err := err
      acc := false
      sendBuf := none
      recvBuf := none
      recv := none
      sendQ := [] }
  match ep.pollGroup with
  | none => ep1
  | some _ =>
      { ep1 with
        inAcceptable := false
        inReadable := false
        inError := if err = 0 then false else true }

/-- update_poll_group: insert into the readiness sets according to the
current state; never removes. -/
def update_poll_group (ep : Ep) : Ep :=
  match ep.pollGroup with
  | none => ep
  | some _ =>
      { ep with
        inError := if ep.state = MqState.error then true else ep.inError
        inReadable := if ep.recv.isSome then true else ep.inReadable
        inAcceptable := if ep.acc then true else ep.inAcceptable }

/-- The two bits of a pollfd events/revents word that matter here. -/
structure Events where
  pollin : Bool
  pollout : Bool
  deriving DecidableEq, Repr

/-- poll_events: which events the state machine wants next. -/
def poll_events (ep : Ep) : Events :=
  match ep.state with
  | MqState.inprogress => ⟨false, true⟩
  | MqState.connected =>
      ⟨!ep.acc && ep.recv.isNone, ep.sendBuf.isSome || !ep.sendQ.isEmpty⟩
  | MqState.server => ⟨!ep.acc && ep.recv.isNone, false⟩
  | MqState.error => ⟨false, false⟩

/-- Result of flush_recv: the int it returns, the errno left behind,
and the updated endpoint and inbound stream. -/
structure FlushOut where
  rc : Int
  errno : Nat
  ep : Ep
  sin : SockIn
  deriving DecidableEq, Repr

/-- flush_recv.  Loops while no completed message is pending.  A
mid-header read stores through (&hdr + hdr_pos) — byte offset
hdrResumeOff hdr_pos = 16*hdr_pos into the struct, via msgStoreBytes,
so a resumed read lands on parsed_header and the cursors rather than
hdr[hdr_pos..16] — then hdr_pos (possibly itself just clobbered) is
advanced by the syscall return.  Once hdr_pos counts 16, the magic is
checked and the type / big-endian length decoded, but only if
parsed_header still reads as false; the body buffer is allocated with
one extra zero byte.  A zero-byte read returns -1 with errno
untouched; a temporary errno returns 0. -/
def flushRecv (fuel : Nat) (errno : Nat) (ep : Ep) (s : SockIn) : Option FlushOut :=
  match fuel with
  | 0 => none
  | fuel + 1 =>
    match ep.recv with
    | some _ => some ⟨0, errno, ep, s⟩
    | none =>
      let rcv := ep.recvBuf.getD msgCreate
      if rcv.hdrPos < 16 then
        match recvSys s (16 - rcv.hdrPos) with
        | (ReadRes.tempErr, s1) => some ⟨0, errno, { ep with recvBuf := some rcv }, s1⟩
        | (ReadRes.closed, s1) => some ⟨-1, errno, { ep with recvBuf := some rcv }, s1⟩
        | (ReadRes.fatalRes e, s1) => some ⟨-1, e, { ep with recvBuf := some rcv }, s1⟩
        | (ReadRes.bytes bs, s1) =>
          let rcv2 := msgStoreBytes rcv (hdrResumeOff rcv.hdrPos) bs
          flushRecv fuel errno
            { ep with recvBuf := some { rcv2 with hdrPos := rcv2.hdrPos + bs.length } } s1
      else if !rcv.parsedHeader then
        if rcv.hdr.take 5 ≠ magicBytes then
          some ⟨-1, errno, { ep with recvBuf := some rcv }, s⟩
        else
          flushRecv fuel errno
            { ep with recvBuf := some { rcv with
                type := rcv.hdr.getD 7 0
                len := be64toh (rcv.hdr.drop 8)
                buf := List.replicate (be64toh (rcv.hdr.drop 8) + 1) 0
                parsedHeader := true } } s
      else if rcv.bufPos < rcv.len then
        match recvSys s (rcv.len - rcv.bufPos) with
        | (ReadRes.tempErr, s1) => some ⟨0, errno, { ep with recvBuf := some rcv }, s1⟩
        | (ReadRes.closed, s1) => some ⟨-1, errno, { ep with recvBuf := some rcv }, s1⟩
        | (ReadRes.fatalRes e, s1) => some ⟨-1, e, { ep with recvBuf := some rcv }, s1⟩
        | (ReadRes.bytes bs, s1) =>
          flushRecv fuel errno
            { ep with recvBuf := some { rcv with
                buf := writeBytesAt rcv.buf rcv.bufPos bs
                bufPos := rcv.bufPos + bs.length } } s1
      else
        some ⟨0, errno, { ep with recv := some rcv, recvBuf := none }, s⟩

/-- Result of flush_send: the int it returns, errno, the endpoint, the
remaining send script, and the trace of bytes actually handed to the
kernel. -/
structure SendOut where
  rc : Int
  errno : Nat
  ep : Ep
  script : List SendRes
  trace : List Nat
  deriving DecidableEq, Repr

/-- flush_send.  Pops the queue head into send_buf (finalizing its
header) when idle; a mid-header write sends from (&hdr + hdr_pos) —
the struct bytes at offset hdrResumeOff hdr_pos, via msgLoadBytes, so
a resumed write sends parsed_header, padding and cursor bytes rather
than hdr[hdr_pos..16] — then from buf + buf_pos; a completed message
is released.  trace accumulates the bytes given to send(2). -/
def flushSend (fuel : Nat) (errno : Nat) (ep : Ep) (script : List SendRes)
    (trace : List Nat) : Option SendOut :=
  match fuel with
  | 0 => none
  | fuel + 1 =>
    match ep.sendBuf, ep.sendQ with
    | none, [] => some ⟨0, errno, ep, script, trace⟩
    | none, m :: rest =>
      flushSend fuel errno { ep with sendQ := rest, sendBuf := some (write_header m) } script trace
    | some snd, _ =>
      if snd.hdrPos < 16 then
        match sendSys script (16 - snd.hdrPos) with
        | (SendRes.wblock, sc) => some ⟨0, errno, ep, sc, trace⟩
        | (SendRes.fatal e, sc) => some ⟨-1, e, ep, sc, trace⟩
        | (SendRes.accept k, sc) =>
          if k = 0 then some ⟨-1, errno, ep, sc, trace⟩
          else
            flushSend fuel errno
              { ep with sendBuf := some { snd with hdrPos := snd.hdrPos + k } } sc
              (trace ++ msgLoadBytes snd (hdrResumeOff snd.hdrPos) k)
      else if snd.bufPos < snd.len then
        match sendSys script (snd.len - snd.bufPos) with
        | (SendRes.wblock, sc) => some ⟨0, errno, ep, sc, trace⟩
        | (SendRes.fatal e, sc) => some ⟨-1, e, ep, sc, trace⟩
        | (SendRes.accept k, sc) =>
          if k = 0 then some ⟨-1, errno, ep, sc, trace⟩
          else
            flushSend fuel errno
              { ep with sendBuf := some { snd with bufPos := snd.bufPos + k } } sc
              (trace ++ (snd.buf.drop snd.bufPos).take k)
      else
        flushSend fuel errno { ep with sendBuf := none } script trace

/-- mq_recv: hand the completed message (if any) to the caller and
drop the endpoint from its group's readable set. -/
def mq_recv (ep : Ep) : Option Msg × Ep :=
  (ep.recv,
   match ep.pollGroup with
   | none => { ep with recv := none }
   | some _ => { ep with recv := none, inReadable := false })

/-- Result of handle_revents: the int it returns, errno, the updated
endpoint and both socket scripts. -/
structure HrOut where
  rc : Int
  errno : Nat
  ep : Ep
  sin : SockIn
  sout : List SendRes
  deriving DecidableEq, Repr

/-- handle_revents, for one endpoint and the revents bits of the
previous poll iteration.  soErr models the SO_ERROR value that
getsockopt reports for an in-progress connect.  The connected branch
runs flush_send then flush_recv, calling mq_die with the latched errno
if either reports -1; update_poll_group always runs on the way out.
A server whose accept slot is already occupied would fail the
assert(!mq->acc) in the C source, modelled as none. -/
def handle_revents (fuel : Nat) (rev : Events) (soErr errno : Nat) (ep : Ep)
    (sin : SockIn) (sout : List SendRes) : Option HrOut :=
  match ep.state with
  | MqState.error => some ⟨0, errno, update_poll_group ep, sin, sout⟩
  | MqState.inprogress =>
    if rev.pollout then
      if soErr = 0 then
        some ⟨0, errno, update_poll_group { ep with state := MqState.connected }, sin, sout⟩
      else
        some ⟨0, errno, update_poll_group (mq_die ep soErr), sin, sout⟩
    else some ⟨0, errno, update_poll_group ep, sin, sout⟩
  | MqState.connected =>
    match (if rev.pollout then flushSend fuel errno ep sout [] else some ⟨0, errno, ep, sout, []⟩) with
    | none => none
    | some so =>
      if so.rc = -1 then
        some ⟨-1, so.errno, update_poll_group (mq_die so.ep so.errno), sin, so.script⟩
      else
        match (if rev.pollin then flushRecv fuel so.errno so.ep sin else some ⟨0, so.errno, so.ep, sin⟩) with
        | none => none
        | some ro =>
          if ro.rc = -1 then
            some ⟨-1, ro.errno, update_poll_group (mq_die ro.ep ro.errno), ro.sin, so.script⟩
          else
            some ⟨0, ro.errno, update_poll_group ro.ep, ro.sin, so.script⟩
  | MqState.server =>
    if rev.pollin then
      if ep.acc then none
      else some ⟨0, errno, update_poll_group { ep with acc := true }, sin, sout⟩
    else some ⟨0, errno, update_poll_group ep, sin, sout⟩

/-- One member of a poll set: its endpoint, its socket scripts, its
pending SO_ERROR, and the revents recorded by the previous ppoll. -/
structure Member where
  ep : Ep
  sin : SockIn
  sout : List SendRes
  soErr : Nat
  rev : Events
  deriving DecidableEq, Repr

/-- The members loop at the top of mq_poll_wait: handle each member's
previous revents in order, stopping at the first -1 (goto DONE); later
members are left untouched, but the failed member has already been
updated (and marked) by mq_die / update_poll_group. -/
def handlePass (fuel : Nat) : Nat → List Member → Option (Int × Nat × List Member)
  | e, [] => some (0, e, [])
  | e, m :: rest =>
    match handle_revents fuel m.rev m.soErr e m.ep m.sin m.sout with
    | none => none
    | some o =>
      let m2 : Member := ⟨o.ep, o.sin, o.sout, m.soErr, m.rev⟩
      if o.rc = -1 then some (-1, o.errno, m2 :: rest)
      else
        match handlePass fuel o.errno rest with
        | none => none
        | some (rc, e2, rest2) => some (rc, e2, m2 :: rest2)

/-- rc = set_size(acceptable) + set_size(readable) + set_size(error),
computed from the per-member membership flags. -/
def countReady (ms : List Member) : Nat :=
  ms.countP (fun m => m.ep.inAcceptable) +
  ms.countP (fun m => m.ep.inReadable) +
  ms.countP (fun m => m.ep.inError)

/-- What one ppoll(2) sleep reports: fresh revents for every member
(positive return), timeout, EINTR, or another errno. -/
inductive PpollRes where
  | ready (revs : List Events)
  | zero
  | eintrRes
  | fatalRes (e : Nat)
  deriving DecidableEq, Repr

/-- The environment of one wait iteration: whether the residual
timeout (stoptime - now) has gone negative, and what ppoll returns if
the sleep is reached. -/
structure IterEnv where
  expired : Bool
  ppoll : PpollRes
  deriving DecidableEq, Repr

def EINTR : Nat := 4
def ENOENT : Nat := 2
def EEXIST : Nat := 17
def EINVAL : Nat := 22

/-- Distribute the revents of a positive ppoll over the members. -/
def assignRevs (ms : List Member) (revs : List Events) : List Member :=
  List.zipWith (fun m r => { m with rev := r }) ms revs

/-- The do/while of mq_poll_wait.  Each iteration: run the handle pass
(a -1 jumps to DONE, which maps errno EINTR to 0 and everything else
to -1); then count the readiness sets and return the count if positive;
then check the deadline; then sleep, mapping a ppoll timeout or EINTR
to 0 and a ppoll failure to -1, and looping on a positive ppoll with
the fresh revents. -/
def pollWaitLoop (fuel : Nat) : Nat → List Member → List IterEnv → Option (Int × List Member)
  | errno, ms, iters =>
    match handlePass fuel errno ms with
    | none => none
    | some (rc, e2, ms2) =>
      if rc = -1 then some (if e2 = EINTR then (0 : Int) else -1, ms2)
      else
        if 0 < countReady ms2 then some ((countReady ms2 : Int), ms2)
        else
          match iters with
          | [] => none
          | env :: rest =>
            if env.expired then some (0, ms2)
            else
              match env.ppoll with
              | PpollRes.ready revs => pollWaitLoop fuel e2 (assignRevs ms2 revs) rest
              | PpollRes.zero => some (0, ms2)
              | PpollRes.eintrRes => some (0, ms2)
              | PpollRes.fatalRes _ => some (-1, ms2)

/-- mq_poll_wait: the pfds array is freshly calloc-ed, so the first
iteration consumes all-zero revents. -/
def mq_poll_wait (fuel errno : Nat) (ms : List Member) (iters : List IterEnv) :
    Option (Int × List Member) :=
  pollWaitLoop fuel errno (ms.map (fun m => { m with rev := ⟨false, false⟩ })) iters

/-- struct mq_poll, set-level view: the member table (endpoint id to
tag) and the three readiness sets in insertion order. -/
structure PollSetS where
  members : List (Nat × Nat)
  acceptable : List Nat
  readable : List Nat
  error : List Nat
  deriving DecidableEq, Repr

/-- itable_lookup. -/
def lookupTag (members : List (Nat × Nat)) (k : Nat) : Option Nat :=
  (members.find? (fun kv => kv.1 == k)).map (fun kv => kv.2)

/-- mq_poll_add: EEXIST if the endpoint is already in this set, EINVAL
if it is in another set; otherwise insert with the tag defaulting to
the endpoint itself (its id).  Returns (rc, errno, endpoint, set). -/
def mq_poll_add (pid errno : Nat) (p : PollSetS) (epId : Nat) (ep : Ep)
    (tag : Option Nat) : Int × Nat × Ep × PollSetS :=
  if ep.pollGroup = some pid then (-1, EEXIST, ep, p)
  else if ep.pollGroup.isSome then (-1, EINVAL, ep, p)
  else
    (0, errno, { ep with pollGroup := some pid },
     { p with members := p.members ++ [(epId, tag.getD epId)] })

/-- mq_poll_rm: ENOENT if the endpoint is not in this set; otherwise
remove it from the member table and all three readiness sets. -/
def mq_poll_rm (pid errno : Nat) (p : PollSetS) (epId : Nat) (ep : Ep) :
    Int × Nat × Ep × PollSetS :=
  if ep.pollGroup ≠ some pid then (-1, ENOENT, ep, p)
  else
    (0, errno,
     { ep with
       pollGroup := none
       inAcceptable := false
       inReadable := false
       inError := false },
     { p with
       members := p.members.filter (fun kv => kv.1 ≠ epId)
       acceptable := p.acceptable.filter (fun x => x ≠ epId)
       readable := p.readable.filter (fun x => x ≠ epId)
       error := p.error.filter (fun x => x ≠ epId) })

/-- Outcome of the three readiness queries: either the tag found, or a
failed assert (set_next_element returned NULL, or the tag lookup did). -/
inductive QRes where
  | assertFail
  | tag (t : Nat)
  deriving DecidableEq, Repr

/-- mq_poll_acceptable: take the first element of the set and assert
both it and its tag. -/
def mq_poll_acceptable (p : PollSetS) : QRes :=
  match p.acceptable.head? with
  | none => QRes.assertFail
  | some mq =>
    match lookupTag p.members mq with
    | none => QRes.assertFail
    | some t => QRes.tag t

/-- mq_poll_readable, same shape. -/
def mq_poll_readable (p : PollSetS) : QRes :=
  match p.readable.head? with
  | none => QRes.assertFail
  | some mq =>
    match lookupTag p.members mq with
    | none => QRes.assertFail
    | some t => QRes.tag t

/-- mq_poll_error, same shape. -/
def mq_poll_error (p : PollSetS) : QRes :=
  match p.error.head? with
  | none => QRes.assertFail
  | some mq =>
    match lookupTag p.members mq with
    | none => QRes.assertFail
    | some t => QRes.tag t

/-! ### Concrete fixtures used by the theorems below -/

/-- The five payload bytes of the string hello. -/
def helloBytes : List Nat := [104, 101, 108, 108, 111]

/-- A freshly connected endpoint inside poll group 0. -/
def epConn : Ep :=
  { state := MqState.connected, err := 0, sendQ := [], sendBuf := none,
    recvBuf := none, recv := none, acc := false, pollGroup := some 0,
    inAcceptable := false, inReadable := false, inError := false }

/-- epConn with one wrapped hello message queued for sending. -/
def epHello : Ep := { epConn with sendQ := [mq_wrap_buffer helloBytes] }

/-- The 21 wire bytes of that message: magic, two zero pads, type 0,
big-endian length 5, then the payload. -/
def wireHello : List Nat :=
  [68, 83, 109, 115, 103, 0, 0, 0, 0, 0, 0, 0, 0, 0, 0, 5,
   104, 101, 108, 108, 111]

/-- The complete 16-byte header of the hello message. -/
def fullHdrHello : List Nat := [68, 83, 109, 115, 103, 0, 0, 0, 0, 0, 0, 0, 0, 0, 0, 5]

/-- A header buffer after exactly one byte has arrived. -/
def hdrMid : List Nat := [68, 0, 0, 0, 0, 0, 0, 0, 0, 0, 0, 0, 0, 0, 0, 0]

/-- A receive in progress, one header byte in. -/
def msgMid : Msg := { msgCreate with hdr := hdrMid, hdrPos := 1 }

/-- The 15 header bytes still owed to msgMid on the wire. -/
def restHdr : List Nat := [83, 109, 115, 103, 0, 0, 0, 0, 0, 0, 0, 0, 0, 0, 5]

/-- A send in progress, one header byte already written. -/
def msgMidSend : Msg := { (write_header (mq_wrap_buffer helloBytes)) with hdrPos := 1 }

/-- A poll member whose peer has closed: the inbound script is empty
with an eof terminator. -/
def mDead : Member := ⟨epConn, ⟨[], SockTerm.eof⟩, [], 0, ⟨false, false⟩⟩

/-- An endpoint already latched in ERROR and already in the error set. -/
def epErrC4 : Ep :=
  { epConn with state := MqState.error, err := 5, inError := true }

/-- A poll member wrapping epErrC4. -/
def mErrC4 : Member := ⟨epErrC4, ⟨[], SockTerm.again⟩, [], 0, ⟨false, false⟩⟩

/-- The outcome of handling a clean peer close on epConn. -/
def hrClean : HrOut :=
  (handle_revents 2 ⟨true, false⟩ 0 0 epConn ⟨[], SockTerm.eof⟩ []).getD
    ⟨0, 0, epConn, ⟨[], SockTerm.eof⟩, []⟩

/-- A 16-byte wire header whose first five bytes (0x58 0x58 in front,
ASCII XX) are not the magic, and whose byte at offset 9 is 1 with
zeros after it: delivered as [1 byte][15 bytes], the resumed read's
clobber lands hdr_pos itself at 1, so the following += 15 makes it
exactly 16. -/
def badHdr16 : List Nat := [88, 88, 109, 115, 103, 0, 0, 0, 0, 1, 0, 0, 0, 0, 0, 0]

/-- The 15 struct bytes a resumed header write actually sends at
hdr_pos = 1: parsed_header (0), seven padding zeros, then the
little-endian low bytes of hdr_pos = 1. -/
def midSendTrace : List Nat := [0, 0, 0, 0, 0, 0, 0, 0, 1, 0, 0, 0, 0, 0, 0]

/-- An endpoint holding an undrained completed message. -/
def epReady : Ep := { epConn with recv := some msgCreate }

/-- An empty poll set. -/
def pEmpty : PollSetS := ⟨[], [], [], []⟩

/-- A poll set with one member, id 7 tagged 42, currently readable. -/
def pReadable7 : PollSetS := ⟨[(7, 42)], [], [7], []⟩

/-! ### Theorems -/

/-- C1.  The claim (framing integrity under every fragmentation of
the byte stream) fails on this code.  The send side does emit the
correct 21 wire bytes for the single message wrap_buffer(hello) when
the kernel takes whole writes, and an UNfragmented delivery of those
bytes yields the message intact; but delivering the same bytes as
[1 byte][15 bytes][5 bytes] makes the resumed header read store
through (&hdr + 1) - onto parsed_header and hdr_pos, 16 bytes past
the header start - so the magic check is skipped and a garbage
zero-length message is delivered instead of hello.  (One byte per
read corrupts the same fields by the third read and then writes past
the allocation; either way hello is never delivered intact.) -/
theorem mq_framing_fragmented_code_bug :
    (flushSend 8 0 epHello [SendRes.accept 100, SendRes.accept 100] []).map
      (fun o => (o.rc, o.trace)) = some (0, wireHello)
    ∧ (flushRecv 25 0 epConn ⟨[wireHello], SockTerm.again⟩).map
      (fun o => (o.rc, o.ep.recv.map (fun m => (m.type, m.len, m.buf.take m.len)))) =
        some (0, some (0, 5, helloBytes))
    ∧ (flushRecv 6 0 epConn ⟨[[68], restHdr, helloBytes], SockTerm.again⟩).map
      (fun o => (o.rc, o.ep.recv.map (fun m => (m.type, m.len, m.buf.take m.len)))) =
        some (0, some (0, 0, []))
    ∧ ((0 : Nat), (0 : Nat), ([] : List Nat)) ≠ ((0 : Nat), (5 : Nat), helloBytes) := by
  decide

/-- C2.  The claim (a mid-header transfer resumes at byte offset
hdr_pos of the 16-byte header) fails on this code: the offset used is
hdrResumeOff 1 = 16, not 1.  With hdr_pos = 1, the next read of the
remaining 15 header bytes leaves hdr unchanged (the claim requires it
to become the completed header fullHdrHello) and instead lands on
parsed_header and hdr_pos, after which the skipped magic check lets a
garbage zero-length message through; and the next write of 15 bytes
sends the adjacent struct bytes (parsed_header, padding, the hdr_pos
value - midSendTrace) rather than hdr[1..16].  Only the cursor
advance (hdr_pos += syscall return) matches the claim. -/
theorem mq_midheader_resume_code_bug :
    (flushRecv 3 0 { epConn with recvBuf := some msgMid } ⟨[restHdr], SockTerm.again⟩).map
      (fun o => (o.rc, o.ep.recv.map (fun m => (m.hdr, m.len, m.parsedHeader)))) =
        some (0, some (hdrMid, 0, true))
    ∧ hdrMid ≠ fullHdrHello
    ∧ (flushSend 3 0 { epConn with sendBuf := some msgMidSend } [SendRes.accept 100] []).map
      (fun o => o.trace) = some midSendTrace
    ∧ midSendTrace ≠ fullHdrHello.drop 1
    ∧ hdrResumeOff 1 = 16 := by
  decide

/-- C5, counterexample.  A reachable ERROR state with err = 0: the
clean-close path reaches state ERROR through mq_die(mq, errno) with
errno = 0, so the claim that err is non-zero whenever state is ERROR
is false. -/
theorem mq_error_state_err_zero_counterexample :
    (handle_revents 2 ⟨true, false⟩ 0 0 epConn ⟨[], SockTerm.eof⟩ []).map
      (fun o => (o.ep.state, o.ep.err, mq_geterror o.ep)) =
      some (MqState.error, 0, 0) := by
  decide

/-- C5, amended.  Every transition into ERROR goes through mq_die,
which releases the accepted child, the send queue and every pending
message, and latches err to the code it is given - which is 0 for a
clean peer close and non-zero otherwise. -/
theorem mq_die_releases_all (ep : Ep) (e : Nat) :
    (mq_die ep e).state = MqState.error ∧ (mq_die ep e).err = e ∧
    (mq_die ep e).sendQ = [] ∧ (mq_die ep e).sendBuf = none ∧
    (mq_die ep e).recvBuf = none ∧ (mq_die ep e).recv = none ∧
    (mq_die ep e).acc = false := by
  cases h : ep.pollGroup <;> simp [mq_die, h]

/-- C8.  mq_poll_add fails with EEXIST when the endpoint is already in
this set and with EINVAL when it is in a different set; mq_poll_rm
fails with ENOENT when the endpoint is not in this set.  In every
failing case both the endpoint and the poll set are returned
unchanged. -/
theorem mq_poll_membership_misuse (pid errno : Nat) (p : PollSetS) (epId : Nat)
    (ep : Ep) (tag : Option Nat) :
    (ep.pollGroup = some pid →
      mq_poll_add pid errno p epId ep tag = (-1, EEXIST, ep, p))
    ∧ (∀ q, ep.pollGroup = some q → q ≠ pid →
      mq_poll_add pid errno p epId ep tag = (-1, EINVAL, ep, p))
    ∧ (ep.pollGroup ≠ some pid →
      mq_poll_rm pid errno p epId ep = (-1, ENOENT, ep, p)) := by
  refine ⟨fun h => ?_, fun q hq hne => ?_, fun h => ?_⟩
  · simp [mq_poll_add, h]
  · simp [mq_poll_add, hq, hne]
  · simp [mq_poll_rm, h]

/-- C8, witness: epConn lives in poll group 0, so adding it to group 0
again is EEXIST, adding it to group 1 is EINVAL, and removing it from
group 1 is ENOENT; pEmpty and the endpoint come back unchanged. -/
theorem mq_poll_membership_misuse_witness :
    mq_poll_add 0 0 pEmpty 1 epConn none = (-1, EEXIST, epConn, pEmpty)
    ∧ mq_poll_add 1 0 pEmpty 1 epConn none = (-1, EINVAL, epConn, pEmpty)
    ∧ mq_poll_rm 1 0 pEmpty 1 epConn = (-1, ENOENT, epConn, pEmpty) := by
  refine ⟨(mq_poll_membership_misuse 0 0 pEmpty 1 epConn none).1 (by decide),
    (mq_poll_membership_misuse 1 0 pEmpty 1 epConn none).2.1 0 (by decide) (by decide),
    (mq_poll_membership_misuse 1 0 pEmpty 1 epConn none).2.2 (by decide)⟩

/-- C10.  The three readiness queries assert rather than report an
empty set: on an empty corresponding set each returns the
assertion-failure outcome instead of a none indication, so they are
only safe once a wait has reported that kind of readiness.  When the
set is non-empty and the member has a tag, the tag is returned. -/
theorem mq_poll_query_assert_precondition (p : PollSetS) :
    (p.acceptable = [] → mq_poll_acceptable p = QRes.assertFail)
    ∧ (p.readable = [] → mq_poll_readable p = QRes.assertFail)
    ∧ (p.error = [] → mq_poll_error p = QRes.assertFail)
    ∧ (∀ m rest t, p.readable = m :: rest → lookupTag p.members m = some t →
        mq_poll_readable p = QRes.tag t) := by
  refine ⟨fun h => ?_, fun h => ?_, fun h => ?_, fun m rest t h hl => ?_⟩
  · simp [mq_poll_acceptable, h]
  · simp [mq_poll_readable, h]
  · simp [mq_poll_error, h]
  · simp [mq_poll_readable, h, hl]

/-- C10, witness: on pReadable7 the acceptable and error sets are
empty (assertion failure), while the readable query returns tag 42. -/
theorem mq_poll_query_assert_precondition_witness :
    mq_poll_acceptable pReadable7 = QRes.assertFail
    ∧ mq_poll_error pReadable7 = QRes.assertFail
    ∧ mq_poll_readable pReadable7 = QRes.tag 42 := by
  refine ⟨(mq_poll_query_assert_precondition pReadable7).1 (by decide),
    (mq_poll_query_assert_precondition pReadable7).2.2.1 (by decide),
    (mq_poll_query_assert_precondition pReadable7).2.2.2 7 [] 42 (by decide) (by decide)⟩

/-- C9.  Header round-trip: for any type byte < 256 and length up to
2^32, write_header produces a 16-byte header whose magic passes the
receive-path check and whose decoded type byte (offset 7) and
big-endian length (offsets 8..16, via be64toh) give back the pair. -/
theorem mq_header_roundtrip (t l : Nat) (ht : t < 256) (hl : l ≤ 2 ^ 32) :
    ((write_header { msgCreate with type := t, len := l }).hdr.take 5 = magicBytes)
    ∧ ((write_header { msgCreate with type := t, len := l }).hdr.getD 7 0 = t)
    ∧ (be64toh ((write_header { msgCreate with type := t, len := l }).hdr.drop 8) = l) := by
  have hh : (write_header { msgCreate with type := t, len := l }).hdr =
      [68, 83, 109, 115, 103, 0, 0, t % 256,
       l / 72057594037927936 % 256, l / 281474976710656 % 256,
       l / 1099511627776 % 256, l / 4294967296 % 256,
       l / 16777216 % 256, l / 65536 % 256, l / 256 % 256, l % 256] := rfl
  refine ⟨by rw [hh]; rfl, ?_, ?_⟩
  · rw [hh]
    simpa [List.getD] using Nat.mod_eq_of_lt ht
  · rw [hh]
    simp only [be64toh, List.drop, List.foldl]
    omega

/-- C4, counterexample.  One connected member whose peer has closed:
during the wait's handle pass the member dies, is marked in the error
set (the ready count afterwards is 1), yet mq_poll_wait returns -1
instead of that positive count - rc = -1 jumps to DONE before the
counting step, and errno (0 here) is not EINTR. -/
theorem mq_poll_wait_member_error_counterexample :
    (mq_poll_wait 4 0 [mDead] [⟨false, PpollRes.ready [⟨true, false⟩]⟩]).map
      (fun r => (r.1, countReady r.2)) = some (-1, 1) := by
  decide

/-- C4, amended.  After a handle pass with no member failure, a
positive combined size of the three readiness sets is returned as the
count; with a zero count the wait returns 0 on an expired deadline and
0 on a ppoll EINTR, and -1 on another ppoll failure.  But when a
member's flush fails during the handle pass (rc = -1), the wait
returns immediately with -1 - or 0 if the latched errno happens to be
EINTR - and never reports the readiness count. -/
theorem mq_poll_wait_return_spec (fuel errno : Nat) (ms : List Member)
    (iters : List IterEnv) :
    (∀ e2 ms2, handlePass fuel errno ms = some (0, e2, ms2) →
      (0 < countReady ms2 →
        pollWaitLoop fuel errno ms iters = some ((countReady ms2 : Int), ms2))
      ∧ (countReady ms2 = 0 → ∀ env rest, iters = env :: rest → env.expired = true →
          pollWaitLoop fuel errno ms iters = some (0, ms2))
      ∧ (countReady ms2 = 0 → ∀ env rest, iters = env :: rest → env.expired = false →
          env.ppoll = PpollRes.eintrRes →
          pollWaitLoop fuel errno ms iters = some (0, ms2))
      ∧ (countReady ms2 = 0 → ∀ env rest e3, iters = env :: rest → env.expired = false →
          env.ppoll = PpollRes.fatalRes e3 →
          pollWaitLoop fuel errno ms iters = some (-1, ms2)))
    ∧ (∀ e2 ms2, handlePass fuel errno ms = some (-1, e2, ms2) →
        pollWaitLoop fuel errno ms iters =
          some ((if e2 = EINTR then 0 else -1 : Int), ms2)) := by
  constructor
  · intro e2 ms2 hp
    refine ⟨fun hc => ?_, fun hc env rest hit hex => ?_, fun hc env rest hit hex hpp => ?_,
      fun hc env rest e3 hit hex hpp => ?_⟩
    · rw [pollWaitLoop, hp]
      simp [hc]
    · subst hit
      rw [pollWaitLoop, hp]
      simp [hc, hex]
    · subst hit
      rw [pollWaitLoop, hp]
      simp [hc, hex, hpp]
    · subst hit
      rw [pollWaitLoop, hp]
      simp [hc, hex, hpp]
  · intro e2 ms2 hp
    rw [pollWaitLoop, hp]
    simp

/-- C4, witness: a member already latched in the error set; the handle
pass succeeds with rc = 0 and the loop reports the positive readiness
count (here 1). -/
theorem mq_poll_wait_return_spec_witness :
    handlePass 3 0 [mErrC4] = some (0, 0, [mErrC4])
    ∧ pollWaitLoop 3 0 [mErrC4] [] = some ((countReady [mErrC4] : Int), [mErrC4])
    ∧ countReady [mErrC4] = 1 := by
  have hp : handlePass 3 0 [mErrC4] = some (0, 0, [mErrC4]) := by decide
  exact ⟨hp, ((mq_poll_wait_return_spec 3 0 [mErrC4] []).1 0 [mErrC4] hp).1 (by decide),
    by decide⟩

/-- C3.  A clean peer close (a zero-byte read answering a POLLIN
wake-up, with no errno pending) on a connected endpoint that belongs
to a poll group leaves it in state ERROR with geterror 0, and
enumerated in the group's error set. -/
theorem mq_clean_close_error_visibility (fuel soErr g : Nat) (ep : Ep)
    (sout : List SendRes) (out : HrOut)
    (hst : ep.state = MqState.connected)
    (hrv : ep.recv = none)
    (hrb : ep.recvBuf = none)
    (hpg : ep.pollGroup = some g)
    (h : handle_revents fuel ⟨true, false⟩ soErr 0 ep ⟨[], SockTerm.eof⟩ sout = some out) :
    out.ep.state = MqState.error ∧ mq_geterror out.ep = 0 ∧ out.ep.inError = true := by
  cases fuel with
  | zero =>
    simp [handle_revents, hst, flushRecv] at h
  | succ n =>
    have hfr : flushRecv (n + 1) 0 ep ⟨[], SockTerm.eof⟩ =
        some ⟨-1, 0, { ep with recvBuf := some msgCreate }, ⟨[], SockTerm.eof⟩⟩ := by
      simp [flushRecv, hrv, hrb, recvSys, recvChunks, termRes, msgCreate]
    simp only [handle_revents, hst] at h
    simp [hfr] at h
    rw [← h]
    simp [mq_die, update_poll_group, mq_geterror, hpg]

/-- C3, witness: the concrete clean close on epConn. -/
theorem mq_clean_close_error_visibility_witness :
    handle_revents 2 ⟨true, false⟩ 0 0 epConn ⟨[], SockTerm.eof⟩ [] = some hrClean
    ∧ hrClean.ep.state = MqState.error ∧ mq_geterror hrClean.ep = 0
    ∧ hrClean.ep.inError = true := by
  have heq : handle_revents 2 ⟨true, false⟩ 0 0 epConn ⟨[], SockTerm.eof⟩ [] = some hrClean := by
    decide
  have hc := mq_clean_close_error_visibility 2 0 0 epConn [] hrClean (by decide) (by decide)
    (by decide) (by decide) heq
  exact ⟨heq, hc.1, hc.2.1, hc.2.2⟩

/-- flush_recv preserves the single-buffered-receive invariant: if a
completed message is pending then no receive is in progress. -/
theorem flushRecv_preserves_single (fuel : Nat) : ∀ (errno : Nat) (ep : Ep) (s : SockIn)
    (out : FlushOut),
    (ep.recv.isSome = true → ep.recvBuf = none) →
    flushRecv fuel errno ep s = some out →
    (out.ep.recv.isSome = true → out.ep.recvBuf = none) := by
  induction fuel with
  | zero =>
    intro errno ep s out hinv h
    simp [flushRecv] at h
  | succ n ih =>
    intro errno ep s out hinv h
    cases hrv : ep.recv with
    | some m =>
      simp only [flushRecv, hrv] at h
      injection h with h2
      subst h2
      intro hs
      exact hinv (by simpa using hs)
    | none =>
      simp only [flushRecv, hrv] at h
      split at h
      · split at h <;>
          first
            | exact ih _ _ _ _ (fun hs => by simp [hrv] at hs) h
            | (injection h with h2; subst h2; intro hs; simp [hrv] at hs)
      · split at h
        · split at h <;>
            first
              | exact ih _ _ _ _ (fun hs => by simp [hrv] at hs) h
              | (injection h with h2; subst h2; intro hs; simp [hrv] at hs)
        · split at h
          · split at h <;>
              first
                | exact ih _ _ _ _ (fun hs => by simp [hrv] at hs) h
                | (injection h with h2; subst h2; intro hs; simp [hrv] at hs)
          · injection h with h2
            subst h2
            intro _
            simp

/-- C6.  The at-most-one-buffered-receive discipline: flush_recv
preserves (recv_ready present implies recv_current absent); while
recv_ready is occupied flush_recv returns at once, touching neither
the endpoint nor the socket; and poll_events does not request POLLIN
while recv_ready is occupied. -/
theorem mq_recv_ready_backpressure (fuel errno : Nat) (ep : Ep) (s : SockIn)
    (out : FlushOut)
    (hinv : ep.recv.isSome = true → ep.recvBuf = none)
    (h : flushRecv fuel errno ep s = some out) :
    (out.ep.recv.isSome = true → out.ep.recvBuf = none)
    ∧ (ep.recv.isSome = true → out = ⟨0, errno, ep, s⟩)
    ∧ (ep.recv.isSome = true → (poll_events ep).pollin = false) := by
  refine ⟨flushRecv_preserves_single fuel errno ep s out hinv h, fun hs => ?_, fun hs => ?_⟩
  · rcases Option.isSome_iff_exists.mp hs with ⟨m, hm⟩
    cases fuel with
    | zero => simp [flushRecv] at h
    | succ n =>
      simp only [flushRecv, hm] at h
      exact (Option.some.inj h).symm
  · rcases Option.isSome_iff_exists.mp hs with ⟨m, hm⟩
    cases hst : ep.state <;> simp [poll_events, hst, hm]

/-- C6, witness: an endpoint with an undrained message: flush_recv is
the identity (reads nothing) and POLLIN is not requested. -/
theorem mq_recv_ready_backpressure_witness :
    flushRecv 1 0 epReady ⟨[], SockTerm.again⟩ = some ⟨0, 0, epReady, ⟨[], SockTerm.again⟩⟩
    ∧ (poll_events epReady).pollin = false := by
  have h : flushRecv 1 0 epReady ⟨[], SockTerm.again⟩ =
      some ⟨0, 0, epReady, ⟨[], SockTerm.again⟩⟩ := by decide
  have ht := mq_recv_ready_backpressure 1 0 epReady ⟨[], SockTerm.again⟩
    ⟨0, 0, epReady, ⟨[], SockTerm.again⟩⟩ (by decide) h
  exact ⟨h, ht.2.2 (by decide)⟩

/-- C7.  The claim (every stream whose first five bytes differ from
DSmsg poisons the endpoint into ERROR and never yields a Msg) fails
on this code under fragmentation; it holds only when the header
arrives in one read.  Unfragmented, the bad magic is rejected with -1
and nothing is delivered.  But delivered as [1 byte][15 bytes], the
resumed read stores the stream bytes onto parsed_header (now
non-zero, hence true) and onto hdr_pos itself (landing it at 1, so
the += 15 makes exactly 16): the memcmp is never executed, and
handle_revents then leaves the endpoint CONNECTED, marks it readable
- not errored - and mq_recv hands the caller a garbage zero-length
Msg from the poisonous stream. -/
theorem mq_bad_magic_bypass_code_bug :
    badHdr16.take 5 ≠ magicBytes
    ∧ (flushRecv 3 0 epConn ⟨[badHdr16], SockTerm.eof⟩).map
        (fun o => (o.rc, o.ep.recv)) = some (-1, none)
    ∧ (handle_revents 6 ⟨true, false⟩ 0 0 epConn
        ⟨[[88], badHdr16.drop 1], SockTerm.eof⟩ []).map
        (fun o => (o.rc, o.ep.state, o.ep.inReadable, o.ep.inError)) =
        some (0, MqState.connected, true, false)
    ∧ (handle_revents 6 ⟨true, false⟩ 0 0 epConn
        ⟨[[88], badHdr16.drop 1], SockTerm.eof⟩ []).map
        (fun o => (mq_recv o.ep).1.map (fun m => (m.len, m.parsedHeader))) =
        some (some (0, true)) := by
  decide

/-- C9, witness: round trip at the concrete pair (0, 5). -/
theorem mq_header_roundtrip_witness :
    0 < 256 ∧ 5 ≤ 2 ^ 32
    ∧ ((write_header { msgCreate with type := 0, len := 5 }).hdr.take 5 = magicBytes)
    ∧ ((write_header { msgCreate with type := 0, len := 5 }).hdr.getD 7 0 = 0)
    ∧ (be64toh ((write_header { msgCreate with type := 0, len := 5 }).hdr.drop 8) = 5) := by
  have h := mq_header_roundtrip 0 5 (by decide) (by norm_num)
  exact ⟨by decide, by norm_num, h.1, h.2.1, h.2.2⟩

end MqModel
